import Mathlib

/-!
Verification of the ilcd package reader (Go) against its specification.

The Go sources are embedded shallowly:
  * `zip.go` (ZipReader, findXML, unmarshal, readData, the Get*/Get*Data
    lookups, the Each* enumerations, NewZipReader);
  * `commons.go` (LangString.Get, Classification.GetClass);
  * `flow.go` (Flow and Flow.ReferenceFlowProperty).

Modelling conventions:
  * a zip directory entry (`zip.File`) is a path name together with the
    outcome of reading its byte content (`readData`), since the only
    interaction with an entry is reading its full content;
  * byte content is `List Nat`;
  * `xml.Unmarshal` is external library code, so the typed decoders are
    passed as explicit function parameters `dec : Bytes → Except String α`
    (a decode either produces a value or an error message);
  * Go's `(value, error)` returns become `Except Err _`, where `Err`
    separates the three error sources of the package: the sentinel
    `ErrDataSetNotFound`, an I/O failure while reading an entry, and an
    `xml.Unmarshal` failure — these are produced by disjoint code paths
    and are distinct error values in Go;
  * Go visitor closures (`func(*Flow) bool`), which may have effects, are
    embedded as state-passing functions `σ → Flow → σ × Bool`;
  * nil-able Go pointers and nil-able slices become `Option`.
-/

namespace Ilcd

/-- Byte content of a zip entry (Go `[]byte`). -/
abbrev Bytes := List Nat

/-- The error values the package can produce: the sentinel
`ErrDataSetNotFound`, an I/O error from reading an entry's byte stream, and
an `xml.Unmarshal` decode error.  In Go these come from disjoint sources and
are never equal to each other. -/
inductive Err where
  | notFound : Err
  | ioErr (msg : String) : Err
  | decodeErr (msg : String) : Err
deriving DecidableEq, Repr

/-- Modelled from the spec: the sentinel error `ErrDataSetNotFound` is
declared in a repository file not included here; it is the distinguished
"no entry matches" error value used by the lookups. -/
def ErrDataSetNotFound : Err := Err.notFound

/-- Go `strings.Contains` on character lists: `listContains l pat` is true
iff `pat` occurs as a contiguous sublist of `l` (every list contains `[]`). -/
def listContains [BEq α] : List α → List α → Bool
  | _, [] => true
  | [], _ :: _ => false
  | a :: as, b :: bs => List.isPrefixOf (b :: bs) (a :: as) || listContains as (b :: bs)

/-- Go `strings.Contains` on strings. -/
def strContains (s pat : String) : Bool :=
  listContains s.data pat.data

/-- Go `strings.HasSuffix` on strings. -/
def strHasSuffix (s pat : String) : Bool :=
  List.isSuffixOf pat.data s.data

/-- A zip directory entry: its path name and the outcome of reading its full
byte content (models `zip.File` together with the `readData` helper, which
opens the entry and reads it to the end — either yielding the bytes or an
I/O error). -/
structure ZipFile where
  name : String
  read : Except String Bytes

/-- An open ILCD package reader: `files` is the archive's directory listing
(`r.r.File` of a successfully opened `zip.ReadCloser`), in on-disk order. -/
structure ZipReader where
  files : List ZipFile

/-- Go `readData(file)`: read the entry's bytes; an I/O failure becomes an
`Err.ioErr`. -/
def readData (file : ZipFile) : Except Err Bytes :=
  match file.read with
  | .ok data => .ok data
  | .error e => .error (.ioErr e)

/-- Go `findXML(path, uuid)`: scan the directory listing in order and return
the first entry whose name contains `path` as a substring, ends with ".xml",
and contains `uuid` as a substring; `none` when no entry qualifies. -/
def findXML (r : ZipReader) (path uuid : String) : Option ZipFile :=
  r.files.find? fun f =>
    strContains f.name path && strHasSuffix f.name ".xml" && strContains f.name uuid

/-- Go `unmarshal(file, ds)`: read the entry's bytes (I/O failure becomes
`Err.ioErr`), then decode them with the external `xml.Unmarshal`, passed
here as `dec` (decode failure becomes `Err.decodeErr`). -/
def unmarshal (file : ZipFile) (dec : Bytes → Except String α) : Except Err α :=
  match file.read with
  | .error e => .error (.ioErr e)
  | .ok data =>
    match dec data with
    | .error e => .error (.decodeErr e)
    | .ok a => .ok a

/-- Go `xmlData(path, uuid)`: the raw-bytes lookup shared by all
`Get*Data`-style operations — find the first matching entry, fail with
`ErrDataSetNotFound` if none, otherwise return its byte content verbatim. -/
def xmlData (r : ZipReader) (path uuid : String) : Except Err Bytes :=
  match findXML r path uuid with
  | none => .error ErrDataSetNotFound
  | some file => readData file

/-- An item of an ILCD multi-language string (chardata value and language
code attribute). -/
structure LangStringItem where
  Value : String
  Lang : String
deriving DecidableEq, Repr

/-- `LangString` is a nil-able Go slice of items (`none` models the unset /
nil slice). -/
abbrev LangString := Option (List LangStringItem)

/-- Go `LangString.Get(lang)`: empty string on a nil sequence, otherwise the
value of the first item whose language equals `lang`, or empty string when
none matches. -/
def LangString.Get (ls : LangString) (lang : String) : String :=
  match ls with
  | none => ""
  | some items =>
    match items.find? (fun item => item.Lang == lang) with
    | some item => item.Value
    | none => ""

/-- A data set reference to an ILCD data set (`Ref`); the Go field `Type` is
rendered `Type'` because `Type` is reserved in Lean. -/
structure Ref where
  UUID : String
  Type' : String
  URI : String
  Version : String
  Name : LangString

/-- A category in an ILCD data set classification. -/
structure Class where
  Level : Int
  ID : String
  Name : String
deriving DecidableEq, Repr

/-- An ILCD classification entry; `Classes` is a nil-able Go slice. -/
structure Classification where
  Name : String
  Classes : Option (List Class)

/-- Go `(*Classification).GetClass(level)`: the receiver is a nil-able
pointer, so it is taken as an `Option`; returns `none` when the receiver or
its class list is nil, otherwise the first class whose level equals
`level`, or `none` when no class matches. -/
def Classification.GetClass (c : Option Classification) (level : Int) : Option Class :=
  match c with
  | none => none
  | some cl =>
    match cl.Classes with
    | none => none
    | some cs => cs.find? (fun k => k.Level == level)

/-- The name fields of a flow. -/
structure FlowName where
  BaseName : LangString
  Treatment : LangString
  MixAndLocation : LangString
  Properties : LangString

/-- General flow information (`FlowInfo`). -/
structure FlowInfo where
  UUID : String
  Name : Option FlowName
  Synonyms : LangString
  Classifications : List Classification
  CAS : String
  Comment : LangString

/-- Publication and ownership information of a flow. -/
structure FlowPublication where
  Version : String

/-- A flow property of a flow (`FlowPropertyRef`). -/
structure FlowPropertyRef where
  ID : Int
  FlowProperty : Option Ref
  Mean : Float
  Comment : LangString

/-- An ILCD flow data set (`Flow`); the `XMLName` marker field of the Go
struct is serialization machinery and carries no data.  Pointer fields and
the nil-able slice of flow properties become `Option`. -/
structure Flow where
  Info : Option FlowInfo
  ReferenceFlowPropertyID : Int
  Type' : String
  Publication : Option FlowPublication
  FlowProperties : Option (List FlowPropertyRef)

/-- Go `(*Flow).ReferenceFlowProperty()`: nil-able pointer receiver; `none`
when the receiver or its flow-property list is nil, otherwise the first
entry whose internal ID equals the declared `ReferenceFlowPropertyID`, or
`none` when no entry matches. -/
def Flow.ReferenceFlowProperty (f : Option Flow) : Option FlowPropertyRef :=
  match f with
  | none => none
  | some fl =>
    match fl.FlowProperties with
    | none => none
    | some refs => refs.find? (fun ref => ref.ID == fl.ReferenceFlowPropertyID)

/-- Modelled from the spec: the `Process` entity's field schema lives in a
repository file not included here; per the spec every entity carries a
UUID, and only its existence as a typed value distinct from raw bytes
matters for the claims below. -/
structure Process where
  UUID : String

/-- Modelled from the spec: the `FlowProperty` entity's field schema lives
in a repository file not included here (see `Process`). -/
structure FlowProperty where
  UUID : String

/-- Go `GetProcess(uuid)`: first matching entry under the "processes"
folder token, decoded as a `Process`; `ErrDataSetNotFound` when absent. -/
def GetProcess (r : ZipReader) (dec : Bytes → Except String Process) (uuid : String) :
    Except Err Process :=
  match findXML r "processes" uuid with
  | none => .error ErrDataSetNotFound
  | some file => unmarshal file dec

/-- Go `GetProcessData(uuid)`. -/
def GetProcessData (r : ZipReader) (uuid : String) : Except Err Bytes :=
  xmlData r "processes" uuid

/-- Go `GetFlow(uuid)`: first matching entry under the "flows" folder
token, decoded as a `Flow`; `ErrDataSetNotFound` when absent. -/
def GetFlow (r : ZipReader) (dec : Bytes → Except String Flow) (uuid : String) :
    Except Err Flow :=
  match findXML r "flows" uuid with
  | none => .error ErrDataSetNotFound
  | some file => unmarshal file dec

/-- Go `GetFlowData(uuid)`. -/
def GetFlowData (r : ZipReader) (uuid : String) : Except Err Bytes :=
  xmlData r "flows" uuid

/-- Go `GetFlowProperty(uuid)`. -/
def GetFlowProperty (r : ZipReader) (dec : Bytes → Except String FlowProperty)
    (uuid : String) : Except Err FlowProperty :=
  match findXML r "flowproperties" uuid with
  | none => .error ErrDataSetNotFound
  | some file => unmarshal file dec

/-- Go `GetFlowPropertyData(uuid)`. -/
def GetFlowPropertyData (r : ZipReader) (uuid : String) : Except Err Bytes :=
  xmlData r "flowproperties" uuid

/-- Go `GetUnitGroupData(uuid)`: the only unit-group lookup the source
defines, returning raw bytes. -/
def GetUnitGroupData (r : ZipReader) (uuid : String) : Except Err Bytes :=
  xmlData r "unitgroups" uuid

/-- Go `GetSource(uuid)`: per the source, returns the source data set as a
byte array (it delegates to `xmlData`, not to a typed decode). -/
def GetSource (r : ZipReader) (uuid : String) : Except Err Bytes :=
  xmlData r "sources" uuid

/-- Go `GetContact(uuid)`: per the source, returns the contact data set as
a byte array (it delegates to `xmlData`, not to a typed decode). -/
def GetContact (r : ZipReader) (uuid : String) : Except Err Bytes :=
  xmlData r "contacts" uuid

/-- Modelled from the spec: the path classifier `IsFlowPath` is declared in
a repository file not included here; per the spec a flow path must contain
the folder token "flows" and end with the ".xml" suffix. -/
def IsFlowPath (path : String) : Bool :=
  strContains path "flows" && strHasSuffix path ".xml"

/-- Modelled from the spec: the path classifier `IsProcessPath` (see
`IsFlowPath`), with folder token "processes". -/
def IsProcessPath (path : String) : Bool :=
  strContains path "processes" && strHasSuffix path ".xml"

/-- The loop body of Go `EachFlow` over a directory listing: skip entries
that are not flow paths; decode each flow path entry, aborting with the
decode/read error; hand the decoded flow to the visitor and stop (without
error) when the visitor returns `false`.  The visitor is state-passing. -/
def eachFlowFiles (dec : Bytes → Except String Flow) (fn : σ → Flow → σ × Bool) :
    List ZipFile → σ → σ × Except Err Unit
  | [], s => (s, .ok ())
  | file :: rest, s =>
    if IsFlowPath file.name then
      match unmarshal file dec with
      | .error e => (s, .error e)
      | .ok fl =>
        let q := fn s fl
        if q.2 then eachFlowFiles dec fn rest q.1 else (q.1, .ok ())
    else eachFlowFiles dec fn rest s

/-- Go `EachFlow(fn)`: iterate over the archive's directory listing in
on-disk order as in `eachFlowFiles`. -/
def EachFlow (r : ZipReader) (dec : Bytes → Except String Flow)
    (fn : σ → Flow → σ × Bool) (s : σ) : σ × Except Err Unit :=
  eachFlowFiles dec fn r.files s

/-- The loop body of Go `EachProcess` (same shape as `eachFlowFiles`). -/
def eachProcessFiles (dec : Bytes → Except String Process) (fn : σ → Process → σ × Bool) :
    List ZipFile → σ → σ × Except Err Unit
  | [], s => (s, .ok ())
  | file :: rest, s =>
    if IsProcessPath file.name then
      match unmarshal file dec with
      | .error e => (s, .error e)
      | .ok p =>
        let q := fn s p
        if q.2 then eachProcessFiles dec fn rest q.1 else (q.1, .ok ())
    else eachProcessFiles dec fn rest s

/-- Go `EachProcess(handler)`. -/
def EachProcess (r : ZipReader) (dec : Bytes → Except String Process)
    (fn : σ → Process → σ × Bool) (s : σ) : σ × Except Err Unit :=
  eachProcessFiles dec fn r.files s

/-- Go `NewZipReader(filePath)`: `zip.OpenReader` is external I/O, so its
outcome is a parameter; Go returns `&ZipReader{r: r}, err` where the handle
`r` is nil exactly when opening failed.  The first component is the wrapped
handle (the directory listing when the open succeeded, `none` otherwise),
the second is the error returned alongside it. -/
def NewZipReader (openRes : Except String (List ZipFile)) :
    Option (List ZipFile) × Option String :=
  match openRes with
  | .ok files => (some files, none)
  | .error e => (none, some e)

/-- The condition `findXML` tests on an entry for a given folder token and
UUID (its three checks, in the source's order). -/
def xmlCond (path uuid : String) (f : ZipFile) : Bool :=
  strContains f.name path && strHasSuffix f.name ".xml" && strContains f.name uuid

/-- Whether an entry reads and decodes successfully into a flow whose
`Info.UUID` equals `u`. -/
def decodesToUUID (dec : Bytes → Except String Flow) (f : ZipFile) (u : String) : Bool :=
  match unmarshal f dec with
  | .ok fl =>
    match fl.Info with
    | some info => info.UUID == u
    | none => false
  | .error _ => false

/-- The value of a successful result, `none` on an error. -/
def okValue : Except ε α → Option α
  | .ok a => some a
  | .error _ => none

/-- The first error occurring in a list of results, `none` when all
succeed. -/
def firstError : List (Except Err α) → Option Err
  | [] => none
  | .ok _ :: rest => firstError rest
  | .error e :: _ => some e

/-- The recording visitor: appends every visited flow to its state and
always asks to continue. -/
def collectVisitor : List Flow → Flow → List Flow × Bool :=
  fun s fl => (s ++ [fl], true)

/-- The decode results of the flow-path entries of a directory listing, in
on-disk order. -/
def flowResults (dec : Bytes → Except String Flow) (files : List ZipFile) :
    List (Except Err Flow) :=
  (files.filter fun f => IsFlowPath f.name).map fun f => unmarshal f dec

/-- The decode results of the archive's flow-path entries, in on-disk
order. -/
def flowEntryResults (r : ZipReader) (dec : Bytes → Except String Flow) :
    List (Except Err Flow) :=
  flowResults dec r.files

/-- Spec-side description: the entities an enumeration hands to its visitor
when the visitor always continues — the successful decodes preceding the
first failure. -/
def visitedUpToError (results : List (Except Err Flow)) : List Flow :=
  (results.takeWhile Except.isOk).filterMap okValue

/-- Spec-side description: the outcome of an enumeration whose visitor
always continues — the first decode error if any, success otherwise. -/
def enumOutcome (results : List (Except Err Flow)) : Except Err Unit :=
  match firstError results with
  | some e => .error e
  | none => .ok ()

/-- The visiting phase of an enumeration, abstracted over the list of
decode results: stop with the first error, hand successful decodes to the
state-passing visitor, stop silently when it returns `false`. -/
def visitFlows (fn : σ → Flow → σ × Bool) : σ → List (Except Err Flow) → σ × Except Err Unit
  | s, [] => (s, .ok ())
  | s, .error e :: _ => (s, .error e)
  | s, .ok fl :: rest =>
    let q := fn s fl
    if q.2 then visitFlows fn q.1 rest else (q.1, .ok ())

/-- Instrument a visitor with a counter of how many entities it was invoked
on. -/
def countVis (fn : σ → Flow → σ × Bool) : σ × Nat → Flow → (σ × Nat) × Bool :=
  fun p fl => (((fn p.1 fl).1, p.2 + 1), (fn p.1 fl).2)

/-- The sequence of continue/stop answers a visitor gives along a list of
flows. -/
def decisions (fn : σ → Flow → σ × Bool) : σ → List Flow → List Bool
  | _, [] => []
  | s, fl :: rest => (fn s fl).2 :: decisions fn (fn s fl).1 rest

/-- Sample flow information for concrete archives. -/
def infoU1 : FlowInfo :=
  { UUID := "u1", Name := none, Synonyms := none, Classifications := [],
    CAS := "", Comment := none }

/-- Sample flow with UUID "u1". -/
def flowU1 : Flow :=
  { Info := some infoU1, ReferenceFlowPropertyID := 0, Type' := "",
    Publication := none, FlowProperties := none }

/-- Sample decoder: any non-empty byte content is the flow "u1". -/
def decU1 (b : Bytes) : Except String Flow :=
  match b with
  | [] => .error "empty"
  | _ :: _ => .ok flowU1

/-- Sample archive entry holding the flow "u1". -/
def fileU1 : ZipFile := { name := "flows/u1.xml", read := .ok [1] }

/-- Sample one-entry archive. -/
def readerU1 : ZipReader := { files := [fileU1] }

/-- Sample flow keyed by a byte value. -/
def mkFlow (n : Nat) : Flow :=
  { Info := none, ReferenceFlowPropertyID := Int.ofNat n, Type' := "",
    Publication := none, FlowProperties := none }

/-- Sample decoder: decode the first byte into a keyed flow. -/
def decHead (b : Bytes) : Except String Flow :=
  match b with
  | [] => .error "empty"
  | n :: _ => .ok (mkFlow n)

/-- Sample archive with two flow entries. -/
def readerAB : ZipReader :=
  { files := [{ name := "flows/a.xml", read := .ok [1] },
              { name := "flows/b.xml", read := .ok [2] }] }

/-- Sample source-data entry. -/
def srcFile : ZipFile := { name := "sources/s1.xml", read := .ok [9, 9] }

/-- Sample archive holding one source entry. -/
def readerSrc : ZipReader := { files := [srcFile] }

/-- Sample archive mixing a source entry and a flow entry. -/
def readerMix : ZipReader := { files := [srcFile, fileU1] }

/-- Sample process decoder. -/
def decPW : Bytes → Except String Process := fun _ => .ok { UUID := "p1" }

/-- Sample flow-property reference with internal ID 1. -/
def fpr1 : FlowPropertyRef :=
  { ID := 1, FlowProperty := none, Mean := 1.0, Comment := none }

/-- Sample flow-property reference with internal ID 2. -/
def fpr2 : FlowPropertyRef :=
  { ID := 2, FlowProperty := none, Mean := 2.0, Comment := none }

/-- Sample flow with two flow-property references, declaring 2 as its
reference flow property. -/
def flowRef2 : Flow :=
  { Info := none, ReferenceFlowPropertyID := 2, Type' := "",
    Publication := none, FlowProperties := some [fpr1, fpr2] }

/-- First-match characterization of `List.find?`: when everything before
`a` fails the test and `a` passes it, the scan returns `a`. -/
theorem find?_first {α : Type} (p : α → Bool) (pre : List α) (a : α) (post : List α)
    (ha : p a = true) (hpre : ∀ x ∈ pre, p x = false) :
    (pre ++ a :: post).find? p = some a := by
  induction pre with
  | nil => simpa using List.find?_cons_of_pos post ha
  | cons b bs ih =>
    have hb : p b = false := hpre b (List.mem_cons_self b bs)
    rw [List.cons_append, List.find?_cons_of_neg _ (by simp [hb])]
    exact ih (fun x hx => hpre x (List.mem_cons_of_mem b hx))

/-- A scan finds something as soon as some element passes the test. -/
theorem find?_isSome_of_exists {α : Type} (p : α → Bool) (l : List α)
    (h : ∃ x ∈ l, p x = true) : ∃ a, l.find? p = some a := by
  rcases h with ⟨x, hx, hpx⟩
  cases hfind : l.find? p with
  | some a => exact ⟨a, rfl⟩
  | none => exact absurd hpx (by simpa using List.find?_eq_none.mp hfind x hx)

/-- `findXML` is the first-match scan with the three-way condition
`xmlCond`. -/
theorem findXML_eq_find? (r : ZipReader) (path uuid : String) :
    findXML r path uuid = r.files.find? (xmlCond path uuid) := rfl

/-- `unmarshal` reports only read or decode failures, never the
not-found sentinel. -/
theorem unmarshal_ne_notFound (file : ZipFile) (dec : Bytes → Except String α) :
    unmarshal file dec ≠ .error Err.notFound := by
  unfold unmarshal
  cases hr : file.read with
  | error e => simp
  | ok data =>
    cases hd : dec data with
    | error e => simp [hd]
    | ok a => simp [hd]

/-- Inversion of a successful `unmarshal`: the entry's bytes were read
successfully and decode to the produced value. -/
theorem unmarshal_ok_inv (file : ZipFile) (dec : Bytes → Except String α) (a : α) :
    unmarshal file dec = .ok a → ∃ b, file.read = .ok b ∧ dec b = .ok a := by
  unfold unmarshal
  cases hr : file.read with
  | error e => intro h; cases h
  | ok data =>
    cases hd : dec data with
    | error e => simp [hd]
    | ok a' =>
      simp only [hd]
      intro h
      cases h
      exact ⟨data, rfl, hd⟩

/-- `GetFlow` on a failed lookup. -/
theorem getFlow_eq_of_findXML_none (r : ZipReader) (dec : Bytes → Except String Flow)
    (u : String) (h : findXML r "flows" u = none) :
    GetFlow r dec u = .error ErrDataSetNotFound := by
  unfold GetFlow; rw [h]

/-- `GetFlow` on a successful lookup decodes the found entry. -/
theorem getFlow_eq_of_findXML_some (r : ZipReader) (dec : Bytes → Except String Flow)
    (u : String) (file : ZipFile) (h : findXML r "flows" u = some file) :
    GetFlow r dec u = unmarshal file dec := by
  unfold GetFlow; rw [h]

/-- `GetFlowData` on a successful lookup reads the found entry. -/
theorem getFlowData_eq_of_findXML_some (r : ZipReader) (u : String) (file : ZipFile)
    (h : findXML r "flows" u = some file) :
    GetFlowData r u = readData file := by
  unfold GetFlowData xmlData; rw [h]

/-- Claim C6: for every flow value, `ReferenceFlowProperty` returns `none`
when the flow-property list is nil or when no entry's internal ID equals the
declared `ReferenceFlowPropertyID`, and otherwise returns the first entry
with that ID (in list order), even when several entries are present; being
a total function it never fails. -/
theorem flow_referenceFlowProperty_first_or_none (f : Flow) :
    (f.FlowProperties = none → Flow.ReferenceFlowProperty (some f) = none) ∧
    (∀ refs, f.FlowProperties = some refs →
      (∀ ref ∈ refs, ¬ ref.ID = f.ReferenceFlowPropertyID) →
      Flow.ReferenceFlowProperty (some f) = none) ∧
    (∀ refs pre ref post, f.FlowProperties = some refs → refs = pre ++ ref :: post →
      ref.ID = f.ReferenceFlowPropertyID →
      (∀ x ∈ pre, ¬ x.ID = f.ReferenceFlowPropertyID) →
      Flow.ReferenceFlowProperty (some f) = some ref) := by
  refine ⟨?_, ?_, ?_⟩
  · intro h
    simp [Flow.ReferenceFlowProperty, h]
  · intro refs hrefs hnone
    have hfind : refs.find? (fun ref => ref.ID == f.ReferenceFlowPropertyID) = none := by
      apply List.find?_eq_none.mpr
      intro x hx
      simpa using hnone x hx
    simp [Flow.ReferenceFlowProperty, hrefs, hfind]
  · intro refs pre ref post hrefs hsplit hid hpre
    have hfind : (pre ++ ref :: post).find?
        (fun x => x.ID == f.ReferenceFlowPropertyID) = some ref := by
      apply find?_first
      · simpa using hid
      · intro x hx
        simpa using hpre x hx
    simp [Flow.ReferenceFlowProperty, hrefs, hsplit, hfind]

/-- Witness for C6: a flow with flow-property references 1 and 2 and
declared reference property 2 yields the entry with ID 2. -/
theorem flow_referenceFlowProperty_witness :
    Flow.ReferenceFlowProperty (some flowRef2) = some fpr2 :=
  (flow_referenceFlowProperty_first_or_none flowRef2).2.2 [fpr1, fpr2] [fpr1] fpr2 []
    rfl rfl rfl (by decide)

/-- Claim C7: `LangString.Get` returns the empty string on a nil sequence
and on a sequence without a matching language, and the text of the first
item whose language equals the requested code otherwise; being a total
function it never fails. -/
theorem langString_get_first_or_empty (ls : LangString) (code : String) :
    (ls = none → LangString.Get ls code = "") ∧
    (∀ items, ls = some items → (∀ it ∈ items, ¬ it.Lang = code) →
      LangString.Get ls code = "") ∧
    (∀ items pre it post, ls = some items → items = pre ++ it :: post →
      it.Lang = code → (∀ x ∈ pre, ¬ x.Lang = code) →
      LangString.Get ls code = it.Value) := by
  refine ⟨?_, ?_, ?_⟩
  · intro h
    simp [LangString.Get, h]
  · intro items hitems hnone
    have hfind : items.find? (fun item => item.Lang == code) = none := by
      apply List.find?_eq_none.mpr
      intro x hx
      simpa using hnone x hx
    simp [LangString.Get, hitems, hfind]
  · intro items pre it post hitems hsplit hlang hpre
    have hfind : (pre ++ it :: post).find? (fun x => x.Lang == code) = some it := by
      apply find?_first
      · simpa using hlang
      · intro x hx
        simpa using hpre x hx
    simp [LangString.Get, hitems, hsplit, hfind]

/-- Witness for C7: two languages, a matching "en" entry is returned, the
nil sequence yields the empty string. -/
theorem langString_get_witness :
    LangString.Get (some [⟨"hallo", "de"⟩, ⟨"hello", "en"⟩]) "en" = "hello" ∧
    LangString.Get none "en" = "" :=
  ⟨(langString_get_first_or_empty (some [⟨"hallo", "de"⟩, ⟨"hello", "en"⟩]) "en").2.2
      [⟨"hallo", "de"⟩, ⟨"hello", "en"⟩] [⟨"hallo", "de"⟩] ⟨"hello", "en"⟩ []
      rfl rfl rfl (by decide),
   (langString_get_first_or_empty none "en").1 rfl⟩

/-- Claim C8: `GetClass` returns `none` when the classification pointer or
its class list is nil and when no class has the requested level, and the
first class (in list order) with exactly that level otherwise, also when
several classes share that level. -/
theorem classification_getClass_first_or_none (c : Option Classification) (level : Int) :
    (c = none → Classification.GetClass c level = none) ∧
    (∀ cl, c = some cl → cl.Classes = none → Classification.GetClass c level = none) ∧
    (∀ cl cs, c = some cl → cl.Classes = some cs → (∀ k ∈ cs, ¬ k.Level = level) →
      Classification.GetClass c level = none) ∧
    (∀ cl cs pre k post, c = some cl → cl.Classes = some cs → cs = pre ++ k :: post →
      k.Level = level → (∀ x ∈ pre, ¬ x.Level = level) →
      Classification.GetClass c level = some k) := by
  refine ⟨?_, ?_, ?_, ?_⟩
  · intro h
    simp [Classification.GetClass, h]
  · intro cl hcl hcs
    simp [Classification.GetClass, hcl, hcs]
  · intro cl cs hcl hcs hnone
    have hfind : cs.find? (fun k => k.Level == level) = none := by
      apply List.find?_eq_none.mpr
      intro x hx
      simpa using hnone x hx
    simp [Classification.GetClass, hcl, hcs, hfind]
  · intro cl cs pre k post hcl hcs hsplit hlevel hpre
    have hfind : (pre ++ k :: post).find? (fun x => x.Level == level) = some k := by
      apply find?_first
      · simpa using hlevel
      · intro x hx
        simpa using hpre x hx
    simp [Classification.GetClass, hcl, hcs, hsplit, hfind]

/-- Witness for C8: duplicate levels — the first class at level 2 is
returned, and a level present nowhere yields `none`. -/
theorem classification_getClass_witness :
    Classification.GetClass
      (some { Name := "t", Classes := some [⟨1, "a", "A"⟩, ⟨2, "b", "B"⟩, ⟨2, "c", "C"⟩] }) 2 =
      some ⟨2, "b", "B"⟩ :=
  (classification_getClass_first_or_none
      (some { Name := "t", Classes := some [⟨1, "a", "A"⟩, ⟨2, "b", "B"⟩, ⟨2, "c", "C"⟩] }) 2).2.2.2
    { Name := "t", Classes := some [⟨1, "a", "A"⟩, ⟨2, "b", "B"⟩, ⟨2, "c", "C"⟩] }
    [⟨1, "a", "A"⟩, ⟨2, "b", "B"⟩, ⟨2, "c", "C"⟩]
    [⟨1, "a", "A"⟩] ⟨2, "b", "B"⟩ [⟨2, "c", "C"⟩]
    rfl rfl rfl rfl (by decide)

/-- Claim C9: when opening the archive fails, `NewZipReader` hands the open
error to the caller at once, paired with a nil handle — so no directory
listing exists and none of the entity operations (which all consume a
`ZipReader` built from a successfully opened listing) can run; when opening
succeeds, the listing is wrapped and no error is reported. -/
theorem newZipReader_surfaces_open_error (e : String) (fs : List ZipFile) :
    NewZipReader (.error e) = (none, some e) ∧
    NewZipReader (.ok fs) = (some fs, none) :=
  ⟨rfl, rfl⟩

/-- Claim C3: a typed lookup fails with the not-found sentinel exactly when
no directory entry's path simultaneously contains the folder token, ends
with ".xml", and contains the requested UUID; in particular, failing for
absence never produces a read or decode error (those arise only once an
entry was found). -/
theorem getFlow_notFound_iff (r : ZipReader) (dec : Bytes → Except String Flow)
    (u : String) :
    GetFlow r dec u = .error ErrDataSetNotFound ↔
      ∀ f ∈ r.files,
        (strContains f.name "flows" && strHasSuffix f.name ".xml" &&
          strContains f.name u) = false := by
  have hstep : GetFlow r dec u = .error ErrDataSetNotFound ↔
      findXML r "flows" u = none := by
    cases hfind : findXML r "flows" u with
    | none => simp [getFlow_eq_of_findXML_none r dec u hfind]
    | some file =>
      simp only [getFlow_eq_of_findXML_some r dec u file hfind]
      constructor
      · intro h
        exact absurd h (unmarshal_ne_notFound file dec)
      · intro h
        cases h
  rw [hstep, findXML_eq_find?, List.find?_eq_none]
  constructor
  · intro h f hf
    simpa [xmlCond] using h f hf
  · intro h f hf
    simp [xmlCond, h f hf]

/-- Witness for C3: a UUID absent from the one-entry archive makes the
lookup fail with the not-found sentinel. -/
theorem getFlow_notFound_witness :
    GetFlow readerU1 decU1 "zz" = .error ErrDataSetNotFound :=
  (getFlow_notFound_iff readerU1 decU1 "zz").mpr (by decide)

/-- Inversion of `decodesToUUID`: the entry decodes to a flow whose
information block carries exactly the UUID `u`. -/
theorem decodesToUUID_inv (dec : Bytes → Except String Flow) (f : ZipFile) (u : String)
    (h : decodesToUUID dec f u = true) :
    ∃ fl info, unmarshal f dec = .ok fl ∧ fl.Info = some info ∧ info.UUID = u := by
  unfold decodesToUUID at h
  cases hu : unmarshal f dec with
  | error e => rw [hu] at h; cases h
  | ok fl =>
    rw [hu] at h
    have h' : (match fl.Info with
        | some info => info.UUID == u
        | none => false) = true := h
    cases hinfo : fl.Info with
    | none => rw [hinfo] at h'; cases h'
    | some info =>
      rw [hinfo] at h'
      exact ⟨fl, info, rfl, hinfo, by simpa using h'⟩

/-- Claim C1: when the archive holds a flow entry matching the lookup rule
for UUID `u`, and (per the package's entry-naming convention) every entry
matching that rule is the flow data set with UUID `u`, `GetFlow u` and
`GetFlowData u` both select the same first matching directory entry; the
typed result's `Info.UUID` is `u`, and decoding the raw bytes returned by
`GetFlowData u` yields exactly the value returned by `GetFlow u`. -/
theorem getFlow_getFlowData_crosscheck (r : ZipReader) (dec : Bytes → Except String Flow)
    (u : String)
    (hex : ∃ f ∈ r.files, xmlCond "flows" u f = true)
    (hwf : ∀ f ∈ r.files, xmlCond "flows" u f = true → decodesToUUID dec f u = true) :
    ∃ file b fl,
      findXML r "flows" u = some file ∧
      GetFlowData r u = .ok b ∧
      file.read = .ok b ∧
      dec b = .ok fl ∧
      GetFlow r dec u = .ok fl ∧
      fl.Info.map FlowInfo.UUID = some u := by
  obtain ⟨file, hfind'⟩ := find?_isSome_of_exists (xmlCond "flows" u) r.files hex
  have hfind : findXML r "flows" u = some file := by
    rw [findXML_eq_find?]; exact hfind'
  have hmem : file ∈ r.files := List.mem_of_find?_eq_some hfind'
  have hcond : xmlCond "flows" u file = true := List.find?_some hfind'
  obtain ⟨fl, info, hu, hinfo, huuid⟩ :=
    decodesToUUID_inv dec file u (hwf file hmem hcond)
  obtain ⟨b, hread, hdecb⟩ := unmarshal_ok_inv file dec fl hu
  refine ⟨file, b, fl, hfind, ?_, hread, hdecb, ?_, ?_⟩
  · rw [getFlowData_eq_of_findXML_some r u file hfind]
    unfold readData
    rw [hread]
  · rw [getFlow_eq_of_findXML_some r dec u file hfind, hu]
  · rw [hinfo, Option.map_some', huuid]

/-- Witness for C1: the one-entry archive with the flow "u1". -/
theorem getFlow_getFlowData_crosscheck_witness :
    ∃ file b fl,
      findXML readerU1 "flows" "u1" = some file ∧
      GetFlowData readerU1 "u1" = .ok b ∧
      file.read = .ok b ∧
      decU1 b = .ok fl ∧
      GetFlow readerU1 decU1 "u1" = .ok fl ∧
      fl.Info.map FlowInfo.UUID = some "u1" :=
  getFlow_getFlowData_crosscheck readerU1 decU1 "u1" (by decide) (by decide)

/-- Every string contains the empty string as a substring. -/
theorem strContains_empty (s : String) : strContains s "" = true := by
  unfold strContains
  cases s.data with
  | nil => rfl
  | cons a as => rfl

/-- With the empty UUID, the lookup condition degenerates to the folder
token and ".xml" suffix checks. -/
theorem xmlCond_empty_uuid (f : ZipFile) :
    xmlCond "flows" "" f = (strContains f.name "flows" && strHasSuffix f.name ".xml") := by
  unfold xmlCond
  rw [strContains_empty]
  simp

/-- Claim C10: on an archive with at least one entry whose path contains
"flows" and ends with ".xml", `GetFlow ""` does not fail with the not-found
sentinel: since every string contains the empty string, the UUID check is
vacuous, and the first such entry is decoded. -/
theorem getFlow_empty_uuid_matches_first (r : ZipReader) (dec : Bytes → Except String Flow)
    (hex : ∃ f ∈ r.files,
      (strContains f.name "flows" && strHasSuffix f.name ".xml") = true) :
    ∃ file,
      r.files.find? (fun f => strContains f.name "flows" && strHasSuffix f.name ".xml") =
        some file ∧
      findXML r "flows" "" = some file ∧
      GetFlow r dec "" = unmarshal file dec ∧
      GetFlow r dec "" ≠ .error ErrDataSetNotFound := by
  obtain ⟨file, hfind⟩ := find?_isSome_of_exists
    (fun f => strContains f.name "flows" && strHasSuffix f.name ".xml") r.files hex
  have hcondeq : xmlCond "flows" "" =
      (fun f => strContains f.name "flows" && strHasSuffix f.name ".xml") :=
    funext xmlCond_empty_uuid
  have hfindXML : findXML r "flows" "" = some file := by
    rw [findXML_eq_find?, hcondeq]
    exact hfind
  refine ⟨file, hfind, hfindXML, getFlow_eq_of_findXML_some r dec "" file hfindXML, ?_⟩
  rw [getFlow_eq_of_findXML_some r dec "" file hfindXML]
  exact unmarshal_ne_notFound file dec

/-- Witness for C10: the one-entry archive, queried with the empty UUID. -/
theorem getFlow_empty_uuid_witness :
    ∃ file,
      readerU1.files.find?
          (fun f => strContains f.name "flows" && strHasSuffix f.name ".xml") =
        some file ∧
      findXML readerU1 "flows" "" = some file ∧
      GetFlow readerU1 decU1 "" = unmarshal file decU1 ∧
      GetFlow readerU1 decU1 "" ≠ .error ErrDataSetNotFound :=
  getFlow_empty_uuid_matches_first readerU1 decU1 (by decide)

/-- The enumeration loop with the recording, always-continuing visitor
collects exactly the successful decodes of the flow-path entries preceding
the first decode failure, and reports the first failure. -/
theorem eachFlowFiles_collect (dec : Bytes → Except String Flow) :
    ∀ (files : List ZipFile) (acc : List Flow),
      eachFlowFiles dec collectVisitor files acc =
        (acc ++ visitedUpToError (flowResults dec files),
         enumOutcome (flowResults dec files)) := by
  intro files
  induction files with
  | nil =>
    intro acc
    simp [eachFlowFiles, flowResults, visitedUpToError, enumOutcome, firstError]
  | cons file rest ih =>
    intro acc
    cases hp : IsFlowPath file.name with
    | false =>
      simp [eachFlowFiles, hp, flowResults, List.filter_cons, ih acc]
    | true =>
      cases hu : unmarshal file dec with
      | error e =>
        simp [eachFlowFiles, hp, hu, flowResults, List.filter_cons,
          List.takeWhile_cons, List.filterMap_cons, visitedUpToError,
          enumOutcome, firstError, okValue, Except.isOk, Except.toBool]
      | ok fl =>
        simp [eachFlowFiles, hp, hu, flowResults, List.filter_cons,
          List.takeWhile_cons, List.filterMap_cons, visitedUpToError,
          enumOutcome, firstError, okValue, Except.isOk, Except.toBool,
          collectVisitor, ih (acc ++ [fl])]

/-- Claim C4: with the recording, always-continuing visitor, `EachFlow`
visits exactly the entries satisfying `IsFlowPath`, in the directory
listing's on-disk order, up to (and excluding) the first entry that fails
to decode; it then returns that first decode/read error immediately without
invoking the visitor for that entry or any entry listed after it, and
succeeds when every matching entry decodes. -/
theorem eachFlow_visits_matching_until_error (r : ZipReader)
    (dec : Bytes → Except String Flow) :
    EachFlow r dec collectVisitor [] =
      (visitedUpToError (flowEntryResults r dec),
       enumOutcome (flowEntryResults r dec)) := by
  unfold EachFlow flowEntryResults
  simpa using eachFlowFiles_collect dec r.files []

/-- The enumeration loop is the visiting phase run on the decode results of
the flow-path entries. -/
theorem eachFlowFiles_eq_visitFlows (dec : Bytes → Except String Flow)
    (fn : σ → Flow → σ × Bool) :
    ∀ (files : List ZipFile) (s : σ),
      eachFlowFiles dec fn files s = visitFlows fn s (flowResults dec files) := by
  intro files
  induction files with
  | nil => intro s; simp [eachFlowFiles, flowResults, visitFlows]
  | cons file rest ih =>
    intro s
    cases hp : IsFlowPath file.name with
    | false => simp [eachFlowFiles, hp, flowResults, List.filter_cons, ih s]
    | true =>
      cases hu : unmarshal file dec with
      | error e =>
        simp [eachFlowFiles, hp, hu, flowResults, List.filter_cons, visitFlows]
      | ok fl =>
        cases hb : (fn s fl).2 with
        | true =>
          simp [eachFlowFiles, hp, hu, hb, flowResults, List.filter_cons,
            visitFlows, ih ((fn s fl).1)]
        | false =>
          simp [eachFlowFiles, hp, hu, hb, flowResults, List.filter_cons,
            visitFlows]

/-- `EachFlow` factored through the decode results of the archive's
flow-path entries. -/
theorem eachFlow_eq_visitFlows (r : ZipReader) (dec : Bytes → Except String Flow)
    (fn : σ → Flow → σ × Bool) (s : σ) :
    EachFlow r dec fn s = visitFlows fn s (flowEntryResults r dec) :=
  eachFlowFiles_eq_visitFlows dec fn r.files s

/-- Running the counting instrumentation of a visitor that continues k-1
times and then stops: the count rises by exactly the length of the consumed
ok-prefix and the run ends without error, regardless of what follows. -/
theorem visitFlows_countVis (fn : σ → Flow → σ × Bool) :
    ∀ (fls : List Flow) (rest : List (Except Err Flow)) (s : σ) (n : Nat),
      decisions fn s fls = List.replicate (fls.length - 1) true ++ [false] →
      ∃ send, visitFlows (countVis fn) (s, n) (fls.map Except.ok ++ rest) =
        ((send, n + fls.length), .ok ()) := by
  intro fls
  induction fls with
  | nil =>
    intro rest s n h
    simp [decisions] at h
  | cons fl fls' ih =>
    intro rest s n h
    cases fls' with
    | nil =>
      simp [decisions] at h
      refine ⟨(fn s fl).1, ?_⟩
      simp [visitFlows, countVis, h]
    | cons x xs =>
      have hlen : (fl :: x :: xs).length - 1 = xs.length + 1 := by simp
      rw [hlen, List.replicate_succ] at h
      simp only [decisions, List.cons_append, List.cons.injEq] at h
      obtain ⟨h1, h2⟩ := h
      have h2' : decisions fn (fn s fl).1 (x :: xs) =
          List.replicate ((x :: xs).length - 1) true ++ [false] := by
        simpa using h2
      obtain ⟨send, hrec⟩ := ih rest (fn s fl).1 (n + 1) h2'
      refine ⟨send, ?_⟩
      have harith : n + 1 + (x :: xs).length = n + (fl :: x :: xs).length := by
        simp only [List.length_cons]
        omega
      rw [harith] at hrec
      simpa [visitFlows, countVis, h1] using hrec

/-- Claim C5: for every archive and every (state-passing) visitor, if the
decode results of the flow-path entries begin with k successful decodes and
the visitor answers "continue" on the first k-1 of them and "stop" on the
k-th, then `EachFlow` invokes the visitor exactly k times and returns
without error. -/
theorem eachFlow_visitor_stop_exact_count {σ : Type} (r : ZipReader)
    (dec : Bytes → Except String Flow) (fn : σ → Flow → σ × Bool) (s₀ : σ)
    (k : Nat) (fls : List Flow) (rest : List (Except Err Flow))
    (hk : fls.length = k)
    (hsplit : flowEntryResults r dec = fls.map Except.ok ++ rest)
    (hdecs : decisions fn s₀ fls = List.replicate (k - 1) true ++ [false]) :
    ∃ send, EachFlow r dec (countVis fn) (s₀, 0) = ((send, k), .ok ()) := by
  subst hk
  obtain ⟨send, hv⟩ := visitFlows_countVis fn fls rest s₀ 0 hdecs
  refine ⟨send, ?_⟩
  rw [eachFlow_eq_visitFlows r dec (countVis fn) (s₀, 0), hsplit, hv]
  simp

/-- Witness for C5: two decodable flow entries, a visitor stopping on the
first visit — exactly one entity is visited and the run succeeds. -/
theorem eachFlow_visitor_stop_witness :
    ∃ send,
      EachFlow readerAB decHead (countVis (fun (_ : Unit) (_ : Flow) => ((), false)))
        ((), 0) = ((send, 1), .ok ()) :=
  eachFlow_visitor_stop_exact_count readerAB decHead
    (fun _ _ => ((), false)) () 1 [mkFlow 1] [Except.ok (mkFlow 2)] rfl rfl rfl

/-- Claim C2 counterexample: on a concrete archive, `GetSource` returns the
stored raw bytes verbatim — it is the raw-data lookup `xmlData` and
involves no typed decode, so it does not return a typed Source entity. -/
theorem getSource_returns_raw_bytes_cex :
    GetSource readerSrc "s1" = .ok [9, 9] ∧
    GetSource readerSrc "s1" = xmlData readerSrc "sources" "s1" :=
  ⟨rfl, rfl⟩

/-- Claim C2 (amended): typed getters exist for Process, Flow and
FlowProperty (they decode the found entry), while `GetSource` and
`GetContact` are raw-byte getters identical to the raw lookup `xmlData`
(on success they return the stored bytes verbatim), and UnitGroup has only
the raw-data getter `GetUnitGroupData`. -/
theorem facade_typed_and_raw_getters (r : ZipReader) (u : String)
    (dec : Bytes → Except String Flow) (decP : Bytes → Except String Process) :
    GetSource r u = xmlData r "sources" u ∧
    GetContact r u = xmlData r "contacts" u ∧
    GetUnitGroupData r u = xmlData r "unitgroups" u ∧
    (∀ file b, findXML r "sources" u = some file → file.read = .ok b →
      GetSource r u = .ok b) ∧
    (∀ file b, findXML r "contacts" u = some file → file.read = .ok b →
      GetContact r u = .ok b) ∧
    (∀ file, findXML r "flows" u = some file →
      GetFlow r dec u = unmarshal file dec) ∧
    (∀ file, findXML r "processes" u = some file →
      GetProcess r decP u = unmarshal file decP) := by
  refine ⟨rfl, rfl, rfl, ?_, ?_, ?_, ?_⟩
  · intro file b hf hb
    have h1 : GetSource r u = readData file := by
      unfold GetSource xmlData
      rw [hf]
    rw [h1]
    unfold readData
    rw [hb]
  · intro file b hf hb
    have h1 : GetContact r u = readData file := by
      unfold GetContact xmlData
      rw [hf]
    rw [h1]
    unfold readData
    rw [hb]
  · intro file hf
    exact getFlow_eq_of_findXML_some r dec u file hf
  · intro file hf
    unfold GetProcess
    rw [hf]

/-- Witness for C2's amended claim: on a mixed archive, `GetSource` yields
the raw stored bytes while `GetFlow` decodes the found flow entry. -/
theorem facade_typed_and_raw_getters_witness :
    GetSource readerMix "s1" = .ok [9, 9] ∧
    GetFlow readerMix decU1 "u1" = unmarshal fileU1 decU1 :=
  ⟨(facade_typed_and_raw_getters readerMix "s1" decU1 decPW).2.2.2.1 srcFile [9, 9]
      rfl rfl,
   (facade_typed_and_raw_getters readerMix "u1" decU1 decPW).2.2.2.2.2.1 fileU1 rfl⟩

end Ilcd
